import Mathlib

/-!
Verification of the glab-ci-tools interactive CI browser.

The development shallowly embeds the two JavaScript source files
(src/unnamed/part_000, the current version, and src/index.js, an older
near-duplicate).  Pure formatting functions become Lean functions over
Strings and Nats; JavaScript exceptions (String.prototype.repeat with a
negative count, calling undefined as a function, JSON.parse failure)
become Except/Option values; the asynchronous navigation loop of main()
becomes a fuel-indexed interpreter over an explicit script of operator
selections and provider subprocess responses, producing a linear trace
of observable events.

Conventions of the embedding:
- yoctocolors color functions are modelled as plain ANSI wrappers
  (open code ++ text ++ close code); the library's nested-close
  replacement is irrelevant here because every colored payload in the
  program is escape-free.
- JSON parsing of subprocess stdout is external (Node's JSON.parse over
  the external tool's output); its outcome is part of the scripted
  environment response, not recomputed.
- The trace subprocess of a trigger runs concurrently with the rest of
  the session; the interpreter linearizes its exit immediately after its
  spawn, which preserves every ordering the program itself enforces (the
  promise settles in the exit handler).
-/

namespace GlabCiTools

/-! ## Data model (JSDoc typedefs at the bottom of both files) -/

structure Pipeline where
  id : Nat
  iid : Nat
  status : String
  ref : String
  sha : String
  web_url : String
  updated_at : String
  created_at : String
  deriving DecidableEq, Repr

structure Job where
  name : String
  status : String
  id : Nat
  deriving DecidableEq, Repr

structure PipelineDetails where
  jobs : List Job
  deriving DecidableEq, Repr

/-- Choice record handed to the pipeline selection prompt. -/
structure PipelineChoice where
  name : String
  value : String
  deriving DecidableEq, Repr

/-- Choice record handed to the job selection prompt. -/
structure JobChoice where
  name : String
  value : Nat
  deriving DecidableEq, Repr

/-! ## yoctocolors, modelled as ANSI escape wrappers -/

def ansiWrap (openCode closeCode s : String) : String :=
  openCode ++ s ++ closeCode

def colorsRed (s : String) : String := ansiWrap "\x1b[31m" "\x1b[39m" s
def colorsGreen (s : String) : String := ansiWrap "\x1b[32m" "\x1b[39m" s
def colorsYellow (s : String) : String := ansiWrap "\x1b[33m" "\x1b[39m" s
def colorsBlue (s : String) : String := ansiWrap "\x1b[34m" "\x1b[39m" s
def colorsMagenta (s : String) : String := ansiWrap "\x1b[35m" "\x1b[39m" s
def colorsWhite (s : String) : String := ansiWrap "\x1b[37m" "\x1b[39m" s
def colorsGray (s : String) : String := ansiWrap "\x1b[90m" "\x1b[39m" s
def colorsBold (s : String) : String := ansiWrap "\x1b[1m" "\x1b[22m" s
def colorsDim (s : String) : String := ansiWrap "\x1b[2m" "\x1b[22m" s

/-! ## JavaScript primitives -/

/-- String.prototype.repeat over a single space: throws a RangeError on a
negative count, which the embedding records as an error value. -/
def jsRepeat (n : Int) : Except String String :=
  if n < 0 then .error "RangeError" else .ok (String.mk (List.replicate n.toNat ' '))

/-! ## refMaxLength (main, part_000 lines 12-14 and index.js lines 11-13):
pipelines.reduce((max, pipeline) => Math.max(max, pipeline.ref.length), 0) -/

def refMaxLength (pipelines : List Pipeline) : Nat :=
  pipelines.foldl (fun m p => max m p.ref.length) 0

/-! ## formatPipeline (part_000 lines 139-160) -/

/-- Status-to-open-code lookup of part_000 formatPipeline: the object
literal lookup with the white fallback. -/
def pipelineStatusOpen (status : String) : String :=
  if status = "running" then "\x1b[34m"
  else if status = "success" then "\x1b[32m"
  else if status = "canceled" then "\x1b[90m"
  else if status = "failed" then "\x1b[31m"
  else "\x1b[37m"

/-- formatPipeline of part_000.  The relative-time text (date-fns
formatDistance of created_at against now) is passed in as the already
rendered string, since relative-time formatting is an external
collaborator.  The two space-repeat computations can throw RangeError. -/
def formatPipeline (p : Pipeline) (refMaxLen : Nat) (time : String) : Except String String := do
  let pad1 ← jsRepeat (9 - (p.status.length : Int))
  let pad2 ← jsRepeat ((refMaxLen : Int) - (p.ref.length : Int))
  .ok (pipelineStatusOpen p.status ++
        (p.status ++ pad1 ++ " • #" ++ toString p.id) ++ "\x1b[39m" ++
        (" (#" ++ toString p.iid ++ ") " ++ p.ref) ++
        (" " ++ pad2) ++
        (" (" ++ colorsMagenta time ++ ")"))

/-! ## getJobChoices -/

/-- The status-to-color object literal shared by both versions of
getJobChoices; the lookup yields nothing on an unrecognized status. -/
def jobStatusColorLookup (status : String) : Option (String → String) :=
  if status = "running" then some colorsYellow
  else if status = "success" then some colorsGreen
  else if status = "failed" then some colorsRed
  else if status = "canceled" then some colorsGray
  else if status = "manual" then some colorsBlue
  else none

/-- One job choice as built by part_000 getJobChoices (lines 114-133):
the lookup result defaulted with colors.white, name padded to 20 columns
(the repeat throws RangeError past 20 characters). -/
def jobChoice (job : Job) : Except String JobChoice := do
  let pad ← jsRepeat (20 - (job.name.length : Int))
  .ok { name := colorsBold job.name ++ pad ++ "(" ++
                ((jobStatusColorLookup job.status).getD colorsWhite) job.status ++ ")",
        value := job.id }

/-- One job choice as built by index.js getJobChoices (lines 92-110):
no fallback, so an unrecognized status makes statusColor undefined and
calling it throws a TypeError (after the padding repeat is evaluated). -/
def jobChoiceV0 (job : Job) : Except String JobChoice := do
  let pad ← jsRepeat (20 - (job.name.length : Int))
  match jobStatusColorLookup job.status with
  | none => .error "TypeError"
  | some color =>
      .ok { name := colorsBold job.name ++ pad ++ "(" ++ color job.status ++ ")",
            value := job.id }

/-- getJobChoices of part_000: jobs.map with the first thrown exception
propagating, i.e. a left-to-right effectful map. -/
def getJobChoices : List Job → Except String (List JobChoice)
  | [] => .ok []
  | job :: rest => do
      let c ← jobChoice job
      let cs ← getJobChoices rest
      .ok (c :: cs)

/-- getJobChoices of index.js (the older near-duplicate). -/
def getJobChoicesV0 : List Job → Except String (List JobChoice)
  | [] => .ok []
  | job :: rest => do
      let c ← jobChoiceV0 job
      let cs ← getJobChoicesV0 rest
      .ok (c :: cs)

/-- getPipelineChoices of part_000 (lines 64-71): one choice per
pipeline, name from formatPipeline, value the pipeline sha.  fd renders
the relative-time text from created_at. -/
def getPipelineChoices (fd : String → String) (w : Nat) :
    List Pipeline → Except String (List PipelineChoice)
  | [] => .ok []
  | p :: rest => do
      let nm ← formatPipeline p w (fd p.created_at)
      let cs ← getPipelineChoices fd w rest
      .ok ({ name := nm, value := p.sha } :: cs)

/-! ## Provider Gateway subprocess calls

Each exec-style call is modelled over the environment's response: the
error argument Node passes to the callback (some message exactly when
the subprocess exited non-zero or failed to spawn), the captured stdout,
and — for the calls that parse stdout — the outcome JSON.parse would
have on that stdout.  Key control-flow fact taken from the source: the
callbacks read

  if (error) \x7b reject(error); \x7d
  const json = JSON.parse(stdout);
  resolve(json);

with no return after reject, so JSON.parse always runs; a parse failure
is a synchronous throw inside a plain Node callback, which is an
uncaught exception crashing the process (it is not intercepted by the
Promise constructor, and the pending rejection is never observed). -/

/-- Settlement behavior of one exec-callback promise as seen by the
awaiting code: rejected (the rejection propagates), crashed (an uncaught
exception escaped the callback and kills the process before any handler
runs), or resolved. -/
inductive CallbackOutcome (α : Type) where
  | rejected (e : String)
  | crashed (e : String)
  | resolved (v : α)
  deriving DecidableEq, Repr

/-- Whether the awaiting code observes a rejection. -/
def CallbackOutcome.isRejected {α : Type} : CallbackOutcome α → Bool
  | .rejected _ => true
  | _ => false

/-- Environment response to one glab ci list subprocess. -/
structure ListResult where
  error : Option String
  stdout : String
  parsed : Except String (List Pipeline)
  deriving Repr

/-- Environment response to one glab ci get subprocess. -/
structure GetResult where
  error : Option String
  stdout : String
  parsed : Except String PipelineDetails
  deriving Repr

/-- Environment response to one glab ci trigger subprocess, together
with the exit code the subsequent glab ci trace subprocess ends with
(only the index.js version looks at that code). -/
structure TrigResult where
  error : Option String
  stdout : String
  traceCode : Nat
  deriving Repr

/-- execGlabCiList (part_000 lines 166-176, index.js lines 132-142). -/
def execGlabCiList (r : ListResult) : CallbackOutcome (List Pipeline) :=
  match r.parsed, r.error with
  | .error pe, _ => .crashed pe
  | .ok _, some e => .rejected e
  | .ok ps, none => .resolved ps

/-- execGlabCiGet (part_000 lines 183-193, index.js lines 149-159),
identical control flow to execGlabCiList. -/
def execGlabCiGet (r : GetResult) : CallbackOutcome PipelineDetails :=
  match r.parsed, r.error with
  | .error pe, _ => .crashed pe
  | .ok _, some e => .rejected e
  | .ok d, none => .resolved d

/-! ## Observable events of a session -/

inductive Event where
  | listCall
  | promptPipeline (ps : List Pipeline) (w : Nat)
  | promptAction (sha : String)
  | viewSpawn (sha : String)
  | viewExit (sha : String)
  | detailCall (sha : String)
  | promptJob (choices : List JobChoice)
  | trigExec (id : Nat)
  | rejectTrig (id : Nat) (e : String)
  | traceSpawn (id : Nat)
  | traceExit (id : Nat)
  | resolveTrig (id : Nat) (out : String)
  | printOut (s : String)
  | printErr (s : String)
  | exitProc (code : Nat)
  deriving DecidableEq, Repr

/-- execGlabCiTrigger (part_000 lines 199-214): exec the trigger
command; the callback rejects on error (without returning), then in
either case spawns the attached glab ci trace subprocess and resolves
the trigger's stdout only in that subprocess's exit handler.  The
result is the emitted event sequence plus the promise settlement. -/
def execGlabCiTrigger (jobId : Nat) (r : TrigResult) :
    List Event × CallbackOutcome String :=
  match r.error with
  | some e =>
      ([.trigExec jobId, .rejectTrig jobId e, .traceSpawn jobId, .traceExit jobId],
       .rejected e)
  | none =>
      ([.trigExec jobId, .traceSpawn jobId, .traceExit jobId,
        .resolveTrig jobId r.stdout],
       .resolved r.stdout)

/-- execGlabCiTrigger of index.js (lines 165-181): same shape, but the
trace exit handler additionally calls process.exit with the trace
subprocess's exit code after resolving. -/
def execGlabCiTriggerV0 (jobId : Nat) (r : TrigResult) :
    List Event × CallbackOutcome String :=
  match r.error with
  | some e =>
      ([.trigExec jobId, .rejectTrig jobId e, .traceSpawn jobId, .traceExit jobId,
        .exitProc r.traceCode],
       .rejected e)
  | none =>
      ([.trigExec jobId, .traceSpawn jobId, .traceExit jobId,
        .resolveTrig jobId r.stdout, .exitProc r.traceCode],
       .resolved r.stdout)

/-- execViewPipeline (part_000 lines 219-228): spawn the attached
viewer and resolve on its exit, regardless of exit code. -/
def execViewPipeline (sha : String) : List Event :=
  [.viewSpawn sha, .viewExit sha]

/-! ## Navigation interpreter (main and selectPipelineAction, part_000)

The interpreter threads a Script: the queued operator selections and
provider responses, consumed in program order.  Fuel bounds the two
unbounded while loops; running out of fuel or script reports a stuck
(still waiting) run rather than a completed one. -/

structure Script where
  lists : List ListResult
  sels : List String
  acts : List String
  gets : List GetResult
  jobIds : List Nat
  trigs : List TrigResult
  deriving Repr

/-- Value communicated from selectPipelineAction back to main's inner
loop: a returned action string (none models the undefined fall-through
return), a propagating rejection, a process crash, or a wait on input
the script does not provide. -/
inductive ActionOutcome where
  | ret (a : Option String)
  | thrown (e : String)
  | died (e : String)
  | stuck
  deriving DecidableEq, Repr

structure ActRes where
  evs : List Event
  scr : Script
  out : ActionOutcome

/-- The trigger-job arm of selectPipelineAction: fetch the pipeline
detail, render job choices, prompt for a job, await the trigger (which
itself awaits the trace), print the trigger stdout and return the
selectAction marker.  The action-menu prompt event that precedes the
arm is included in its event list. -/
def triggerFlow (sha : String) (s : Script) : ActRes :=
  match s.gets with
  | [] => ⟨[.promptAction sha, .detailCall sha], s, .stuck⟩
  | g :: gets' =>
    let s2 : Script := { s with gets := gets' }
    match execGlabCiGet g with
    | .rejected e => ⟨[.promptAction sha, .detailCall sha], s2, .thrown e⟩
    | .crashed e => ⟨[.promptAction sha, .detailCall sha], s2, .died e⟩
    | .resolved d =>
      match getJobChoices d.jobs with
      | .error e => ⟨[.promptAction sha, .detailCall sha], s2, .thrown e⟩
      | .ok jcs =>
        match s2.jobIds with
        | [] => ⟨[.promptAction sha, .detailCall sha, .promptJob jcs], s2, .stuck⟩
        | j :: jobIds' =>
          let s3 : Script := { s2 with jobIds := jobIds' }
          match s3.trigs with
          | [] =>
              ⟨[.promptAction sha, .detailCall sha, .promptJob jcs, .trigExec j],
               s3, .stuck⟩
          | t :: trigs' =>
            let s4 : Script := { s3 with trigs := trigs' }
            match (execGlabCiTrigger j t).2 with
            | .resolved o =>
                ⟨[.promptAction sha, .detailCall sha, .promptJob jcs] ++
                  (execGlabCiTrigger j t).1 ++ [.printOut o],
                 s4, .ret (some "selectAction")⟩
            | .rejected e =>
                ⟨[.promptAction sha, .detailCall sha, .promptJob jcs] ++
                  (execGlabCiTrigger j t).1, s4, .thrown e⟩
            | .crashed e =>
                ⟨[.promptAction sha, .detailCall sha, .promptJob jcs] ++
                  (execGlabCiTrigger j t).1, s4, .died e⟩

/-- selectPipelineAction (part_000 lines 77-108): show the action menu,
then dispatch — back and quit are returned to main, view attaches the
viewer subprocess and returns the selectAction marker, trigger runs the
trigger-job arm; any other select value returns undefined. -/
def selectPipelineAction (sha : String) (s : Script) : ActRes :=
  match s.acts with
  | [] => ⟨[.promptAction sha], s, .stuck⟩
  | act :: acts' =>
    let s1 : Script := { s with acts := acts' }
    if act = "back" ∨ act = "quit" then
      ⟨[.promptAction sha], s1, .ret (some act)⟩
    else if act = "view" then
      ⟨[.promptAction sha] ++ execViewPipeline sha, s1, .ret (some "selectAction")⟩
    else if act = "trigger" then
      triggerFlow sha s1
    else
      ⟨[.promptAction sha], s1, .ret none⟩

/-- How main's inner while loop over selectPipelineAction ends. -/
inductive InnerOutcome where
  | backed
  | exited
  | thrown (e : String)
  | died (e : String)
  | stuck
  deriving DecidableEq, Repr

structure InnerRes where
  evs : List Event
  scr : Script
  out : InnerOutcome

/-- The inner while loop of main (part_000 lines 18-27): repeat
selectPipelineAction; continue on the selectAction marker (or any other
unrecognized return such as undefined), break on back, call
process.exit() — exit code 0 — on quit. -/
def innerLoop : Nat → String → Script → InnerRes
  | 0, _, s => ⟨[], s, .stuck⟩
  | fuel + 1, sha, s =>
    let a := selectPipelineAction sha s
    match a.out with
    | .ret (some act) =>
      if act = "back" then ⟨a.evs, a.scr, .backed⟩
      else if act = "quit" then ⟨a.evs ++ [.exitProc 0], a.scr, .exited⟩
      else
        let b := innerLoop fuel sha a.scr
        ⟨a.evs ++ b.evs, b.scr, b.out⟩
    | .ret none =>
        let b := innerLoop fuel sha a.scr
        ⟨a.evs ++ b.evs, b.scr, b.out⟩
    | .thrown e => ⟨a.evs, a.scr, .thrown e⟩
    | .died e => ⟨a.evs, a.scr, .died e⟩
    | .stuck => ⟨a.evs, a.scr, .stuck⟩

/-- How main's outer while loop ends. -/
inductive OuterOutcome where
  | exited (code : Nat)
  | thrown (e : String)
  | died (e : String)
  | stuck
  deriving DecidableEq, Repr

structure OuterRes where
  evs : List Event
  scr : Script
  out : OuterOutcome

/-- The outer while loop of main (part_000 lines 10-28): fetch the
pipeline listing, recompute refMaxLength from the fresh batch, build
the choices (a formatting throw inside the try block becomes a caught
error), prompt for a pipeline, then run the inner action loop for the
selected sha; a back from the inner loop restarts the outer loop. -/
def outerLoop (fd : String → String) : Nat → Script → OuterRes
  | 0, s => ⟨[], s, .stuck⟩
  | fuel + 1, s =>
    match s.lists with
    | [] => ⟨[.listCall], s, .stuck⟩
    | r :: lists' =>
      let s1 : Script := { s with lists := lists' }
      match execGlabCiList r with
      | .rejected e => ⟨[.listCall], s1, .thrown e⟩
      | .crashed e => ⟨[.listCall], s1, .died e⟩
      | .resolved ps =>
        let w := refMaxLength ps
        match getPipelineChoices fd w ps with
        | .error e => ⟨[.listCall], s1, .thrown e⟩
        | .ok _chs =>
          match s1.sels with
          | [] => ⟨[.listCall, .promptPipeline ps w], s1, .stuck⟩
          | sha :: sels' =>
            let s2 : Script := { s1 with sels := sels' }
            let b := innerLoop fuel sha s2
            match b.out with
            | .backed =>
                let c := outerLoop fd fuel b.scr
                ⟨[.listCall, .promptPipeline ps w] ++ b.evs ++ c.evs, c.scr, c.out⟩
            | .exited => ⟨[.listCall, .promptPipeline ps w] ++ b.evs, b.scr, .exited 0⟩
            | .thrown e => ⟨[.listCall, .promptPipeline ps w] ++ b.evs, b.scr, .thrown e⟩
            | .died e => ⟨[.listCall, .promptPipeline ps w] ++ b.evs, b.scr, .died e⟩
            | .stuck => ⟨[.listCall, .promptPipeline ps w] ++ b.evs, b.scr, .stuck⟩

/-- Final fate of the whole process. -/
inductive RunOutcome where
  | exited (code : Nat)
  | finished (code : Nat)
  | died (e : String)
  | stuck
  deriving DecidableEq, Repr

/-- The header main's catch block prints via console.log. -/
def debugHeader : String := colorsRed "An error occurred :"

/-- main (part_000 lines 8-37): run the outer loop inside try/catch.
A rejection reaching the catch is printed — header to stdout, the error
itself to stderr — only when process.argv contains the debug flag;
main then returns normally either way, so the process exits with code
0.  An uncaught callback exception bypasses the catch and kills the
process.  process.exit() from the quit action exits with code 0. -/
def runMain (fd : String → String) (fuel : Nat) (argv : List String) (s : Script) :
    List Event × RunOutcome :=
  let o := outerLoop fd fuel s
  match o.out with
  | .exited c => (o.evs, .exited c)
  | .thrown e =>
      if "--debug" ∈ argv then
        (o.evs ++ [.printOut debugHeader, .printErr e], .finished 0)
      else
        (o.evs, .finished 0)
  | .died e => (o.evs, .died e)
  | .stuck => (o.evs, .stuck)

/-! ## Vocabulary for trace properties -/

/-- The pipeline statuses of the data model. -/
def pipelineStatusEnum : List String :=
  ["running", "success", "failed", "canceled", "pending", "manual"]

/-- Events of the listing cluster: the list subprocess call and the
pipeline selection prompt. -/
def isLP : Event → Bool
  | .listCall => true
  | .promptPipeline _ _ => true
  | _ => false

/-- Strict alternation of list calls and pipeline prompts, starting
with a list call: every pipeline selection prompt is preceded by
exactly one fresh list call since the previous prompt. -/
def altLP : Bool → List Event → Bool
  | _, [] => true
  | true, .listCall :: rest => altLP false rest
  | false, .promptPipeline _ _ :: rest => altLP true rest
  | _, _ => false

/-- Adjacency relation for the view cycle: a viewer exit for a revision
is immediately followed by the action prompt for that same revision. -/
def viewRel : Event → Event → Prop
  | .viewExit sha, y => y = Event.promptAction sha
  | _, _ => True

/-- Adjacency relation for process exit: an exit event carries code 0
and immediately follows an action-menu prompt. -/
def quitRel : Event → Event → Prop
  | x, .exitProc c => c = 0 ∧ ∃ sha, x = Event.promptAction sha
  | _, _ => True

/-! ## Concrete fixtures for witnesses and counterexamples -/

/-- A trivial relative-time renderer for concrete runs. -/
def fdZero : String → String := fun _ => ""

/-- A list response that parses to the empty batch. -/
def emptyOkList : ListResult := ⟨none, "[]", .ok []⟩

/-- A list response whose subprocess exited non-zero while its stdout
still parses (the only way the rejection is ever observed). -/
def failedOkList : ListResult := ⟨some "boom", "[]", .ok []⟩

/-- A list response with exit code zero but malformed stdout. -/
def malformedList : ListResult := ⟨none, "oops", .error "SyntaxError"⟩

/-- Script: select the only action round and quit. -/
def quitScript : Script := ⟨[emptyOkList], ["sha0"], ["quit"], [], [], []⟩

/-- Script whose first list call rejects. -/
def failingListScript : Script := ⟨[failedOkList], [], [], [], [], []⟩

/-! ## Helper lemmas: refMaxLength -/

theorem seed_le_foldl_refMax (ps : List Pipeline) :
    ∀ a : Nat, a ≤ ps.foldl (fun m p => max m p.ref.length) a := by
  induction ps with
  | nil => intro a; simp
  | cons h t ih =>
      intro a
      calc a ≤ max a h.ref.length := le_max_left _ _
      _ ≤ t.foldl (fun m p => max m p.ref.length) (max a h.ref.length) := ih _

theorem mem_le_foldl_refMax (ps : List Pipeline) :
    ∀ a : Nat, ∀ p ∈ ps, p.ref.length ≤ ps.foldl (fun m p => max m p.ref.length) a := by
  induction ps with
  | nil => intro a p hp; simp at hp
  | cons h t ih =>
      intro a p hp
      rcases List.mem_cons.mp hp with rfl | hpt
      · calc p.ref.length ≤ max a p.ref.length := le_max_right _ _
        _ ≤ t.foldl (fun m q => max m q.ref.length) (max a p.ref.length) :=
              seed_le_foldl_refMax t _
      · exact ih _ p hpt

theorem foldl_refMax_cases (ps : List Pipeline) :
    ∀ a : Nat, ps.foldl (fun m p => max m p.ref.length) a = a ∨
      ∃ p ∈ ps, ps.foldl (fun m p => max m p.ref.length) a = p.ref.length := by
  induction ps with
  | nil => intro a; left; rfl
  | cons h t ih =>
      intro a
      rcases ih (max a h.ref.length) with heq | ⟨p, hp, heq⟩
      · rcases max_choice a h.ref.length with hm | hm
        · left; simpa [hm] using heq
        · right; exact ⟨h, List.mem_cons_self _ _, by simpa [hm] using heq⟩
      · right; exact ⟨p, List.mem_cons_of_mem _ hp, heq⟩

/-! ## Helper lemmas: job choice construction -/

theorem jobChoice_ok (j : Job) (h : j.name.length ≤ 20) :
    jobChoice j = .ok
      { name := colorsBold j.name ++
          String.mk (List.replicate (20 - j.name.length) ' ') ++ "(" ++
          ((jobStatusColorLookup j.status).getD colorsWhite) j.status ++ ")",
        value := j.id } := by
  have hn : ¬ ((20 : Int) - (j.name.length : Int) < 0) := by omega
  have ht : ((20 : Int) - (j.name.length : Int)).toNat = 20 - j.name.length := by omega
  simp [jobChoice, jsRepeat, hn, ht, Bind.bind, Except.bind]

theorem getJobChoices_ok (jobs : List Job) (h : ∀ j ∈ jobs, j.name.length ≤ 20) :
    ∃ cs, getJobChoices jobs = .ok cs ∧ cs.map JobChoice.value = jobs.map Job.id := by
  induction jobs with
  | nil => exact ⟨[], rfl, rfl⟩
  | cons j t ih =>
      obtain ⟨cs, hcs, hmap⟩ := ih (fun q hq => h q (List.mem_cons_of_mem _ hq))
      obtain ⟨c, hc, hcv⟩ : ∃ c, jobChoice j = .ok c ∧ c.value = j.id :=
        ⟨_, jobChoice_ok j (h j (List.mem_cons_self _ _)), rfl⟩
      refine ⟨c :: cs, ?_, ?_⟩
      · simp [getJobChoices, hc, hcs, Bind.bind, Except.bind]
      · simp [hmap, hcv]

/-! ## Generic helpers about traces -/

theorem mem_of_getLast?_some {α : Type} {l : List α} {a : α}
    (h : l.getLast? = some a) : a ∈ l := by
  obtain ⟨hne, rfl⟩ := List.mem_getLast?_eq_getLast (Option.mem_def.mpr h)
  exact List.getLast_mem hne

theorem ne_nil_of_head?_some {α : Type} {l : List α} {a : α}
    (h : l.head? = some a) : l ≠ [] := by
  intro hn; rw [hn] at h; cases h

theorem viewRel_of_ne (x y : Event) (h : ∀ sh, x ≠ Event.viewExit sh) : viewRel x y := by
  cases x <;> first | exact absurd rfl (h _) | simp [viewRel]

theorem quitRel_of_ne (x y : Event) (h : ∀ c, y ≠ Event.exitProc c) : quitRel x y := by
  cases y <;> first | exact absurd rfl (h _) | simp [quitRel]

theorem chain'_viewRel_trivial (l : List Event)
    (h : ∀ e ∈ l, ∀ sh, e ≠ Event.viewExit sh) : List.Chain' viewRel l := by
  induction l with
  | nil => exact List.chain'_nil
  | cons x t ih =>
      cases t with
      | nil => exact List.chain'_singleton x
      | cons y u =>
          refine List.chain'_cons.mpr ⟨viewRel_of_ne x y (h x (by simp)), ih ?_⟩
          intro e he
          exact h e (List.mem_cons_of_mem _ he)

theorem chain'_quitRel_of_no_exit (l : List Event)
    (h : ∀ e ∈ l, ∀ c, e ≠ Event.exitProc c) : List.Chain' quitRel l := by
  induction l with
  | nil => exact List.chain'_nil
  | cons x t ih =>
      cases t with
      | nil => exact List.chain'_singleton x
      | cons y u =>
          refine List.chain'_cons.mpr ⟨quitRel_of_ne x y (h y (by simp)), ih ?_⟩
          intro e he
          exact h e (List.mem_cons_of_mem _ he)

theorem filter_isLP_nil {l : List Event} (h : ∀ e ∈ l, isLP e = false) :
    l.filter isLP = [] := by
  induction l with
  | nil => rfl
  | cons x t ih =>
      rw [List.filter_cons, h x (by simp)]
      exact ih fun e he => h e (List.mem_cons_of_mem _ he)

/-! ## Shape facts about the trigger event block -/

theorem execGlabCiTrigger_evs_shape (j : Nat) (t : TrigResult) :
    ∀ e ∈ (execGlabCiTrigger j t).1,
      isLP e = false ∧ (∀ c, e ≠ Event.exitProc c) ∧ (∀ sh, e ≠ Event.viewExit sh) := by
  cases ht : t.error <;> simp [execGlabCiTrigger, ht, isLP]

theorem execGlabCiTrigger_evs_ne_nil (j : Nat) (t : TrigResult) :
    (execGlabCiTrigger j t).1 ≠ [] := by
  cases ht : t.error <;> simp [execGlabCiTrigger, ht]

/-! ## Characterization of selectPipelineAction runs -/

theorem triggerFlow_spec (sha : String) (s : Script) :
    (triggerFlow sha s).evs.head? = some (Event.promptAction sha) ∧
    (∀ e ∈ (triggerFlow sha s).evs,
      isLP e = false ∧ (∀ c, e ≠ Event.exitProc c) ∧ (∀ sh, e ≠ Event.viewExit sh)) ∧
    (∀ a, (triggerFlow sha s).out = .ret (some a) → a = "selectAction") := by
  unfold triggerFlow
  repeat' (first | split | dsimp only)
  all_goals refine ⟨by simp, ?_, by simp⟩
  all_goals
    (intro e he
     simp only [List.mem_append, List.mem_cons, List.not_mem_nil, or_false] at he
     casesm* _ ∨ _ <;>
       first
       | (subst_vars; simp [isLP]; done)
       | (rename_i hmem; exact execGlabCiTrigger_evs_shape _ _ e hmem))

theorem selectPipelineAction_spec (sha : String) (s : Script) :
    (selectPipelineAction sha s).evs.head? = some (Event.promptAction sha) ∧
    (∀ e ∈ (selectPipelineAction sha s).evs,
      isLP e = false ∧ ∀ c, e ≠ Event.exitProc c) ∧
    List.Chain' viewRel (selectPipelineAction sha s).evs ∧
    (∀ sh, (selectPipelineAction sha s).evs.getLast? = some (Event.viewExit sh) →
      sh = sha ∧ (selectPipelineAction sha s).out = .ret (some "selectAction")) ∧
    ((selectPipelineAction sha s).out = .ret (some "quit") →
      (selectPipelineAction sha s).evs = [Event.promptAction sha]) := by
  unfold selectPipelineAction
  repeat' (first | split | dsimp only)
  all_goals first
    -- the trigger arm, via triggerFlow_spec
    | (refine ⟨(triggerFlow_spec sha _).1,
        fun e he => ⟨((triggerFlow_spec sha _).2.1 e he).1,
          ((triggerFlow_spec sha _).2.1 e he).2.1⟩,
        chain'_viewRel_trivial _ (fun e he => ((triggerFlow_spec sha _).2.1 e he).2.2),
        fun sh hlast => absurd rfl
          (((triggerFlow_spec sha _).2.1 _ (mem_of_getLast?_some hlast)).2.2 sh),
        fun hq => absurd ((triggerFlow_spec sha _).2.2 "quit" hq) (by simp)⟩)
    -- the literal arms
    | (refine ⟨by simp [execViewPipeline], ?_, ?_, ?_, by simp⟩
       · intro e he
         simp only [execViewPipeline, List.mem_append, List.mem_cons,
           List.not_mem_nil, or_false] at he
         first
           | (casesm* _ ∨ _ <;> (subst_vars; simp [isLP]; done))
           | (subst_vars; simp [isLP]; done)
       · try simp only [execViewPipeline, List.cons_append, List.nil_append]
         first
           | exact List.chain'_singleton _
           | exact List.chain'_cons.mpr ⟨by trivial, List.chain'_singleton _⟩
           | exact List.chain'_cons.mpr
               ⟨by trivial, List.chain'_cons.mpr ⟨by trivial, List.chain'_singleton _⟩⟩
       · intro sh hlast
         have hmem := mem_of_getLast?_some hlast
         simp only [execViewPipeline, List.mem_append, List.mem_cons,
           List.not_mem_nil, or_false] at hmem
         first
           | (casesm* _ ∨ _ <;> (simp_all; done))
           | (simp_all; done))

/-! ## Invariants of the inner action loop -/

theorem innerLoop_spec (fuel : Nat) : ∀ (sha : String) (s : Script),
    (∀ e ∈ (innerLoop fuel sha s).evs, isLP e = false) ∧
    List.Chain' viewRel (innerLoop fuel sha s).evs ∧
    List.Chain' quitRel (innerLoop fuel sha s).evs ∧
    ((innerLoop fuel sha s).evs.head? = some (Event.promptAction sha) ∨
      (innerLoop fuel sha s).evs = []) ∧
    (∀ sh, (innerLoop fuel sha s).evs.getLast? = some (Event.viewExit sh) →
      (innerLoop fuel sha s).out = .stuck) ∧
    (∀ c, Event.exitProc c ∈ (innerLoop fuel sha s).evs →
      c = 0 ∧ (innerLoop fuel sha s).evs.getLast? = some (Event.exitProc 0) ∧
      (innerLoop fuel sha s).out = .exited) ∧
    ((innerLoop fuel sha s).out = .exited →
      (innerLoop fuel sha s).evs.getLast? = some (Event.exitProc 0)) ∧
    ((innerLoop fuel sha s).evs = [] → (innerLoop fuel sha s).out = .stuck) := by
  induction fuel with
  | zero => intro sha s; simp [innerLoop]
  | succ n ih =>
      intro sha s
      obtain ⟨hhead, hmem, hchain, hlastVE, hquit⟩ := selectPipelineAction_spec sha s
      have hane : (selectPipelineAction sha s).evs ≠ [] := ne_nil_of_head?_some hhead
      have hqchain : List.Chain' quitRel (selectPipelineAction sha s).evs :=
        chain'_quitRel_of_no_exit _ (fun e he => (hmem e he).2)
      -- the shared continue-branch argument
      have hcontinue :
          innerLoop (n + 1) sha s =
            ⟨(selectPipelineAction sha s).evs ++
                (innerLoop n sha (selectPipelineAction sha s).scr).evs,
              (innerLoop n sha (selectPipelineAction sha s).scr).scr,
              (innerLoop n sha (selectPipelineAction sha s).scr).out⟩ →
          (∀ e ∈ (innerLoop (n + 1) sha s).evs, isLP e = false) ∧
          List.Chain' viewRel (innerLoop (n + 1) sha s).evs ∧
          List.Chain' quitRel (innerLoop (n + 1) sha s).evs ∧
          ((innerLoop (n + 1) sha s).evs.head? = some (Event.promptAction sha) ∨
            (innerLoop (n + 1) sha s).evs = []) ∧
          (∀ sh, (innerLoop (n + 1) sha s).evs.getLast? = some (Event.viewExit sh) →
            (innerLoop (n + 1) sha s).out = .stuck) ∧
          (∀ c, Event.exitProc c ∈ (innerLoop (n + 1) sha s).evs →
            c = 0 ∧ (innerLoop (n + 1) sha s).evs.getLast? = some (Event.exitProc 0) ∧
            (innerLoop (n + 1) sha s).out = .exited) ∧
          ((innerLoop (n + 1) sha s).out = .exited →
            (innerLoop (n + 1) sha s).evs.getLast? = some (Event.exitProc 0)) ∧
          ((innerLoop (n + 1) sha s).evs = [] → (innerLoop (n + 1) sha s).out = .stuck) := by
        intro hred
        obtain ⟨ib1, ib2, ib3, ib4, ib5, ib6, ib7, ib8⟩ :=
          ih sha (selectPipelineAction sha s).scr
        rw [hred]
        refine ⟨?_, ?_, ?_, ?_, ?_, ?_, ?_, ?_⟩
        · intro e he
          rcases List.mem_append.mp he with h | h
          · exact (hmem e h).1
          · exact ib1 e h
        · refine List.chain'_append.mpr ⟨hchain, ib2, ?_⟩
          intro x hx y hy
          rcases ib4 with hb4 | hb4
          · have hy' : y = Event.promptAction sha := by
              rw [hb4] at hy; exact Option.mem_some_iff.mp hy |>.symm
            subst hy'
            have hxcase : (∀ sh, x ≠ Event.viewExit sh) ∨ ∃ sh, x = Event.viewExit sh := by
              cases x <;> simp
            rcases hxcase with hx1 | ⟨sh, rfl⟩
            · exact viewRel_of_ne x _ hx1
            · have := (hlastVE sh (Option.mem_def.mp hx)).1
              subst this
              simp [viewRel]
          · rw [hb4] at hy; cases hy
        · refine List.chain'_append.mpr ⟨hqchain, ib3, ?_⟩
          intro x hx y hy
          rcases ib4 with hb4 | hb4
          · have hy' : y = Event.promptAction sha := by
              rw [hb4] at hy; exact Option.mem_some_iff.mp hy |>.symm
            subst hy'
            exact quitRel_of_ne x _ (by simp)
          · rw [hb4] at hy; cases hy
        · left
          rw [List.head?_append_of_ne_nil _ hane]
          exact hhead
        · intro sh hlast
          by_cases hbne : (innerLoop n sha (selectPipelineAction sha s).scr).evs = []
          · exact ib8 hbne
          · rw [List.getLast?_append_of_ne_nil _ hbne] at hlast
            exact ib5 sh hlast
        · intro c hc
          rcases List.mem_append.mp hc with h | h
          · exact absurd rfl ((hmem _ h).2 c)
          · obtain ⟨hc0, hclast, hcout⟩ := ib6 c h
            have hbne : (innerLoop n sha (selectPipelineAction sha s).scr).evs ≠ [] :=
              fun hn => by rw [hn] at h; cases h
            exact ⟨hc0, by rw [List.getLast?_append_of_ne_nil _ hbne]; exact hclast, hcout⟩
        · intro hex
          have hblast := ib7 hex
          have hbne : (innerLoop n sha (selectPipelineAction sha s).scr).evs ≠ [] :=
            fun hn => by rw [hn] at hblast; cases hblast
          rw [List.getLast?_append_of_ne_nil _ hbne]
          exact hblast
        · intro hn
          exact absurd (List.append_eq_nil.mp hn).1 hane
      cases hout : (selectPipelineAction sha s).out with
      | ret oa =>
          cases oa with
          | none =>
              exact hcontinue (by simp [innerLoop, hout])
          | some act =>
              by_cases hb : act = "back"
              · subst hb
                have hred : innerLoop (n + 1) sha s =
                    ⟨(selectPipelineAction sha s).evs, (selectPipelineAction sha s).scr,
                      .backed⟩ := by
                  simp [innerLoop, hout]
                rw [hred]
                refine ⟨fun e he => (hmem e he).1, hchain, hqchain, Or.inl hhead, ?_, ?_, ?_, ?_⟩
                · intro sh hlast
                  have := (hlastVE sh hlast).2
                  rw [hout] at this
                  simp at this
                · intro c hc
                  exact absurd rfl ((hmem _ hc).2 c)
                · intro hex; simp at hex
                · intro hn; exact absurd hn hane
              · by_cases hq : act = "quit"
                · subst hq
                  have hq5 : (selectPipelineAction sha s).evs = [Event.promptAction sha] :=
                    hquit hout
                  have hred : innerLoop (n + 1) sha s =
                      ⟨[Event.promptAction sha, Event.exitProc 0],
                        (selectPipelineAction sha s).scr, .exited⟩ := by
                    simp [innerLoop, hout, hq5]
                  rw [hred]
                  refine ⟨?_, ?_, ?_, by left; rfl, ?_, ?_, ?_, ?_⟩
                  · intro e he; simp at he
                    rcases he with rfl | rfl <;> simp [isLP]
                  · exact List.chain'_cons.mpr ⟨by trivial, List.chain'_singleton _⟩
                  · exact List.chain'_cons.mpr
                      ⟨⟨rfl, sha, rfl⟩, List.chain'_singleton _⟩
                  · intro sh hlast; simp at hlast
                  · intro c hc
                    simp at hc
                    subst hc
                    exact ⟨rfl, by simp, rfl⟩
                  · intro hex; simp
                  · intro hn; simp at hn
                · have hred : innerLoop (n + 1) sha s =
                      ⟨(selectPipelineAction sha s).evs ++
                          (innerLoop n sha (selectPipelineAction sha s).scr).evs,
                        (innerLoop n sha (selectPipelineAction sha s).scr).scr,
                        (innerLoop n sha (selectPipelineAction sha s).scr).out⟩ := by
                    simp [innerLoop, hout, hb, hq]
                  exact hcontinue hred
      | thrown e =>
          have hred : innerLoop (n + 1) sha s =
              ⟨(selectPipelineAction sha s).evs, (selectPipelineAction sha s).scr,
                .thrown e⟩ := by
            simp [innerLoop, hout]
          rw [hred]
          refine ⟨fun e he => (hmem e he).1, hchain, hqchain, Or.inl hhead, ?_, ?_, ?_, ?_⟩
          · intro sh hlast
            have := (hlastVE sh hlast).2
            rw [hout] at this
            simp at this
          · intro c hc
            exact absurd rfl ((hmem _ hc).2 c)
          · intro hex; simp at hex
          · intro hn; exact absurd hn hane
      | died e =>
          have hred : innerLoop (n + 1) sha s =
              ⟨(selectPipelineAction sha s).evs, (selectPipelineAction sha s).scr,
                .died e⟩ := by
            simp [innerLoop, hout]
          rw [hred]
          refine ⟨fun e he => (hmem e he).1, hchain, hqchain, Or.inl hhead, ?_, ?_, ?_, ?_⟩
          · intro sh hlast
            have := (hlastVE sh hlast).2
            rw [hout] at this
            simp at this
          · intro c hc
            exact absurd rfl ((hmem _ hc).2 c)
          · intro hex; simp at hex
          · intro hn; exact absurd hn hane
      | stuck =>
          have hred : innerLoop (n + 1) sha s =
              ⟨(selectPipelineAction sha s).evs, (selectPipelineAction sha s).scr,
                .stuck⟩ := by
            simp [innerLoop, hout]
          rw [hred]
          refine ⟨fun e he => (hmem e he).1, hchain, hqchain, Or.inl hhead, ?_, ?_, ?_, ?_⟩
          · intro sh hlast; rfl
          · intro c hc
            exact absurd rfl ((hmem _ hc).2 c)
          · intro hex; simp at hex
          · intro hn; rfl

/-! ## Invariants of the outer listing loop -/

theorem outerLoop_spec (fuel : Nat) : ∀ (fd : String → String) (s : Script),
    altLP true (((outerLoop fd fuel s).evs).filter isLP) = true ∧
    (∀ ps w, Event.promptPipeline ps w ∈ (outerLoop fd fuel s).evs →
      w = refMaxLength ps) ∧
    List.Chain' viewRel (outerLoop fd fuel s).evs ∧
    List.Chain' quitRel (outerLoop fd fuel s).evs ∧
    (∀ sh, (outerLoop fd fuel s).evs.getLast? = some (Event.viewExit sh) →
      (outerLoop fd fuel s).out = .stuck) ∧
    (∀ c, Event.exitProc c ∈ (outerLoop fd fuel s).evs →
      c = 0 ∧ (outerLoop fd fuel s).evs.getLast? = some (Event.exitProc 0) ∧
      (outerLoop fd fuel s).out = .exited 0) ∧
    (∀ c, (outerLoop fd fuel s).out = .exited c →
      c = 0 ∧ (outerLoop fd fuel s).evs.getLast? = some (Event.exitProc 0)) ∧
    ((outerLoop fd fuel s).evs = [] → (outerLoop fd fuel s).out = .stuck) ∧
    ((outerLoop fd fuel s).evs.head? = some Event.listCall ∨
      (outerLoop fd fuel s).evs = []) := by
  induction fuel with
  | zero => intro fd s; simp [outerLoop, altLP]
  | succ n ih =>
      intro fd s
      cases hlists : s.lists with
      | nil =>
          have hred : outerLoop fd (n + 1) s = ⟨[Event.listCall], s, .stuck⟩ := by
            simp [outerLoop, hlists]
          rw [hred]
          clear hlists ih
          refine ⟨rfl, ?_, List.chain'_singleton _, List.chain'_singleton _,
            ?_, ?_, ?_, ?_, Or.inl rfl⟩ <;> (intros; simp_all)
      | cons r lists' =>
          cases hl : execGlabCiList r with
          | rejected e =>
              have hred : outerLoop fd (n + 1) s =
                  ⟨[Event.listCall], ⟨lists', s.sels, s.acts, s.gets, s.jobIds, s.trigs⟩,
                    .thrown e⟩ := by
                simp [outerLoop, hlists, hl]
              rw [hred]
              clear hlists hl ih
              refine ⟨rfl, ?_, List.chain'_singleton _, List.chain'_singleton _,
                ?_, ?_, ?_, ?_, Or.inl rfl⟩ <;> (intros; simp_all)
          | crashed e =>
              have hred : outerLoop fd (n + 1) s =
                  ⟨[Event.listCall], ⟨lists', s.sels, s.acts, s.gets, s.jobIds, s.trigs⟩,
                    .died e⟩ := by
                simp [outerLoop, hlists, hl]
              rw [hred]
              clear hlists hl ih
              refine ⟨rfl, ?_, List.chain'_singleton _, List.chain'_singleton _,
                ?_, ?_, ?_, ?_, Or.inl rfl⟩ <;> (intros; simp_all)
          | resolved ps =>
              cases hch : getPipelineChoices fd (refMaxLength ps) ps with
              | error e =>
                  have hred : outerLoop fd (n + 1) s =
                      ⟨[Event.listCall],
                        ⟨lists', s.sels, s.acts, s.gets, s.jobIds, s.trigs⟩,
                        .thrown e⟩ := by
                    simp [outerLoop, hlists, hl, hch]
                  rw [hred]
                  clear hlists hl hch ih
                  refine ⟨rfl, ?_, List.chain'_singleton _, List.chain'_singleton _,
                    ?_, ?_, ?_, ?_, Or.inl rfl⟩ <;> (intros; simp_all)
              | ok chs =>
                  cases hsels : s.sels with
                  | nil =>
                      have hred : outerLoop fd (n + 1) s =
                          ⟨[Event.listCall, Event.promptPipeline ps (refMaxLength ps)],
                            ⟨lists', s.sels, s.acts, s.gets, s.jobIds, s.trigs⟩,
                            .stuck⟩ := by
                        simp [outerLoop, hlists, hl, hch, hsels]
                      rw [hred]
                      clear hlists hl hch hsels ih
                      refine ⟨rfl, ?_,
                        List.chain'_cons.mpr ⟨by trivial, List.chain'_singleton _⟩,
                        List.chain'_cons.mpr ⟨by trivial, List.chain'_singleton _⟩,
                        ?_, ?_, ?_, ?_, Or.inl rfl⟩ <;> (intros; simp_all)
                  | cons sha sels' =>
                      obtain ⟨ib1, ib2, ib3, ib4, ib5, ib6, ib7, ib8⟩ :=
                        innerLoop_spec n sha
                          ⟨lists', sels', s.acts, s.gets, s.jobIds, s.trigs⟩
                      cases hbout :
                          (innerLoop n sha
                            ⟨lists', sels', s.acts, s.gets, s.jobIds, s.trigs⟩).out with
                      | backed =>
                          obtain ⟨ic1, ic2, ic3, ic4, ic5, ic6, ic7, ic8, ic9⟩ :=
                            ih fd (innerLoop n sha
                              ⟨lists', sels', s.acts, s.gets, s.jobIds, s.trigs⟩).scr
                          have hred : outerLoop fd (n + 1) s =
                              ⟨[Event.listCall,
                                  Event.promptPipeline ps (refMaxLength ps)] ++
                                ((innerLoop n sha
                                    ⟨lists', sels', s.acts, s.gets, s.jobIds,
                                      s.trigs⟩).evs ++
                                  (outerLoop fd n
                                    (innerLoop n sha
                                      ⟨lists', sels', s.acts, s.gets, s.jobIds,
                                        s.trigs⟩).scr).evs),
                                (outerLoop fd n
                                  (innerLoop n sha
                                    ⟨lists', sels', s.acts, s.gets, s.jobIds,
                                      s.trigs⟩).scr).scr,
                                (outerLoop fd n
                                  (innerLoop n sha
                                    ⟨lists', sels', s.acts, s.gets, s.jobIds,
                                      s.trigs⟩).scr).out⟩ := by
                            simp [outerLoop, hlists, hl, hch, hsels, hbout,
                              List.append_assoc]
                          rw [hred]
                          constructor
                          · show altLP true (List.filter isLP _) = true
                            rw [List.filter_append, List.filter_append,
                              filter_isLP_nil ib1]
                            simpa [altLP, isLP] using ic1
                          refine ⟨?_, ?_, ?_, ?_, ?_, ?_, ?_, ?_⟩
                          · intro ps' w' h
                            rcases List.mem_append.mp h with h | h
                            · simp at h
                              obtain ⟨rfl, rfl⟩ := h
                              rfl
                            · rcases List.mem_append.mp h with h | h
                              · have := ib1 _ h
                                simp [isLP] at this
                              · exact ic2 ps' w' h
                          · refine List.chain'_append.mpr ⟨?_, ?_, ?_⟩
                            · exact List.chain'_cons.mpr ⟨by trivial, List.chain'_singleton _⟩
                            · refine List.chain'_append.mpr ⟨ib2, ic3, ?_⟩
                              intro x hx y hy
                              have hxcase : (∀ sh, x ≠ Event.viewExit sh) ∨
                                  ∃ sh, x = Event.viewExit sh := by
                                cases x <;> simp
                              rcases hxcase with hx1 | ⟨sh, rfl⟩
                              · exact viewRel_of_ne x y hx1
                              · have := ib5 sh (Option.mem_def.mp hx)
                                rw [hbout] at this
                                cases this
                            · intro x hx y hy
                              have hx' : x = Event.promptPipeline ps (refMaxLength ps) := by
                                simp at hx; exact hx.symm
                              subst hx'
                              exact viewRel_of_ne _ y (by simp)
                          · refine List.chain'_append.mpr ⟨?_, ?_, ?_⟩
                            · exact List.chain'_cons.mpr ⟨by trivial, List.chain'_singleton _⟩
                            · refine List.chain'_append.mpr ⟨ib3, ic4, ?_⟩
                              intro x hx y hy
                              rcases ic9 with h9 | h9
                              · have hy' : y = Event.listCall := by
                                  rw [h9] at hy
                                  exact (Option.mem_some_iff.mp hy).symm
                                subst hy'
                                exact quitRel_of_ne x _ (by simp)
                              · rw [h9] at hy; cases hy
                            · intro x hx y hy
                              by_cases hbnil :
                                  (innerLoop n sha
                                    ⟨lists', sels', s.acts, s.gets, s.jobIds,
                                      s.trigs⟩).evs = []
                              · rw [hbnil, List.nil_append] at hy
                                rcases ic9 with h9 | h9
                                · have hy' : y = Event.listCall := by
                                    rw [h9] at hy
                                    exact (Option.mem_some_iff.mp hy).symm
                                  subst hy'
                                  exact quitRel_of_ne x _ (by simp)
                                · rw [h9] at hy; cases hy
                              · rw [List.head?_append_of_ne_nil _ hbnil] at hy
                                rcases ib4 with h4 | h4
                                · have hy' : y = Event.promptAction sha := by
                                    rw [h4] at hy
                                    exact (Option.mem_some_iff.mp hy).symm
                                  subst hy'
                                  exact quitRel_of_ne x _ (by simp)
                                · exact absurd h4 hbnil
                          · intro sh hlast
                            by_cases hcnil :
                                (outerLoop fd n
                                  (innerLoop n sha
                                    ⟨lists', sels', s.acts, s.gets, s.jobIds,
                                      s.trigs⟩).scr).evs = []
                            · exact ic8 hcnil
                            · have hne2 :
                                  ((innerLoop n sha
                                    ⟨lists', sels', s.acts, s.gets, s.jobIds,
                                      s.trigs⟩).evs ++
                                    (outerLoop fd n
                                      (innerLoop n sha
                                        ⟨lists', sels', s.acts, s.gets, s.jobIds,
                                          s.trigs⟩).scr).evs) ≠ [] := by
                                intro hn
                                exact hcnil (List.append_eq_nil.mp hn).2
                              rw [List.getLast?_append_of_ne_nil _ hne2,
                                List.getLast?_append_of_ne_nil _ hcnil] at hlast
                              exact ic5 sh hlast
                          · intro c hc
                            rcases List.mem_append.mp hc with h | h
                            · simp at h
                            · rcases List.mem_append.mp h with h | h
                              · have := (ib6 c h).2.2
                                rw [hbout] at this
                                cases this
                              · obtain ⟨hc0, hclast, hcout⟩ := ic6 c h
                                have hcnil :
                                    (outerLoop fd n
                                      (innerLoop n sha
                                        ⟨lists', sels', s.acts, s.gets, s.jobIds,
                                          s.trigs⟩).scr).evs ≠ [] := by
                                  intro hn; rw [hn] at h; cases h
                                have hne2 :
                                    ((innerLoop n sha
                                      ⟨lists', sels', s.acts, s.gets, s.jobIds,
                                        s.trigs⟩).evs ++
                                      (outerLoop fd n
                                        (innerLoop n sha
                                          ⟨lists', sels', s.acts, s.gets, s.jobIds,
                                            s.trigs⟩).scr).evs) ≠ [] := by
                                  intro hn
                                  exact hcnil (List.append_eq_nil.mp hn).2
                                refine ⟨hc0, ?_, hcout⟩
                                rw [List.getLast?_append_of_ne_nil _ hne2,
                                  List.getLast?_append_of_ne_nil _ hcnil]
                                exact hclast
                          · intro c hc
                            obtain ⟨hc0, hclast⟩ := ic7 c hc
                            have hcnil :
                                (outerLoop fd n
                                  (innerLoop n sha
                                    ⟨lists', sels', s.acts, s.gets, s.jobIds,
                                      s.trigs⟩).scr).evs ≠ [] := by
                              intro hn; rw [hn] at hclast; cases hclast
                            have hne2 :
                                ((innerLoop n sha
                                  ⟨lists', sels', s.acts, s.gets, s.jobIds,
                                    s.trigs⟩).evs ++
                                  (outerLoop fd n
                                    (innerLoop n sha
                                      ⟨lists', sels', s.acts, s.gets, s.jobIds,
                                        s.trigs⟩).scr).evs) ≠ [] := by
                              intro hn
                              exact hcnil (List.append_eq_nil.mp hn).2
                            refine ⟨hc0, ?_⟩
                            rw [List.getLast?_append_of_ne_nil _ hne2,
                              List.getLast?_append_of_ne_nil _ hcnil]
                            exact hclast
                          · intro hn; cases hn
                          · left; rfl
                      | exited =>
                          have hblast := ib7 hbout
                          have hbnil :
                              (innerLoop n sha
                                ⟨lists', sels', s.acts, s.gets, s.jobIds,
                                  s.trigs⟩).evs ≠ [] := by
                            intro hn; rw [hn] at hblast; cases hblast
                          have hred : outerLoop fd (n + 1) s =
                              ⟨[Event.listCall,
                                  Event.promptPipeline ps (refMaxLength ps)] ++
                                (innerLoop n sha
                                  ⟨lists', sels', s.acts, s.gets, s.jobIds,
                                    s.trigs⟩).evs,
                                (innerLoop n sha
                                  ⟨lists', sels', s.acts, s.gets, s.jobIds,
                                    s.trigs⟩).scr,
                                .exited 0⟩ := by
                            simp [outerLoop, hlists, hl, hch, hsels, hbout]
                          rw [hred]
                          refine ⟨?_, ?_, ?_, ?_, ?_, ?_, ?_, ?_, Or.inl rfl⟩
                          · show altLP true (List.filter isLP _) = true
                            rw [List.filter_append, filter_isLP_nil ib1]
                            rfl
                          · intro ps' w' h
                            rcases List.mem_append.mp h with h | h
                            · simp at h
                              obtain ⟨rfl, rfl⟩ := h
                              rfl
                            · have := ib1 _ h
                              simp [isLP] at this
                          · refine List.chain'_append.mpr
                              ⟨List.chain'_cons.mpr ⟨by trivial, List.chain'_singleton _⟩,
                                ib2, ?_⟩
                            intro x hx y hy
                            have hx' : x = Event.promptPipeline ps (refMaxLength ps) := by
                              simp at hx; exact hx.symm
                            subst hx'
                            exact viewRel_of_ne _ y (by simp)
                          · refine List.chain'_append.mpr
                              ⟨List.chain'_cons.mpr ⟨by trivial, List.chain'_singleton _⟩,
                                ib3, ?_⟩
                            intro x hx y hy
                            rcases ib4 with h4 | h4
                            · have hy' : y = Event.promptAction sha := by
                                rw [h4] at hy
                                exact (Option.mem_some_iff.mp hy).symm
                              subst hy'
                              exact quitRel_of_ne x _ (by simp)
                            · exact absurd h4 hbnil
                          · intro sh hlast
                            rw [List.getLast?_append_of_ne_nil _ hbnil, hblast] at hlast
                            cases hlast
                          · intro c hc
                            rcases List.mem_append.mp hc with h | h
                            · simp at h
                            · obtain ⟨hc0, hclast, _⟩ := ib6 c h
                              exact ⟨hc0,
                                by rw [List.getLast?_append_of_ne_nil _ hbnil]; exact hclast,
                                rfl⟩
                          · intro c hc
                            have : c = 0 := by
                              cases hc; rfl
                            subst this
                            exact ⟨rfl,
                              by rw [List.getLast?_append_of_ne_nil _ hbnil]; exact hblast⟩
                          · intro hn; cases hn
                      | thrown e =>
                          have hred : outerLoop fd (n + 1) s =
                              ⟨[Event.listCall,
                                  Event.promptPipeline ps (refMaxLength ps)] ++
                                (innerLoop n sha
                                  ⟨lists', sels', s.acts, s.gets, s.jobIds,
                                    s.trigs⟩).evs,
                                (innerLoop n sha
                                  ⟨lists', sels', s.acts, s.gets, s.jobIds,
                                    s.trigs⟩).scr,
                                .thrown e⟩ := by
                            simp [outerLoop, hlists, hl, hch, hsels, hbout]
                          rw [hred]
                          refine ⟨?_, ?_, ?_, ?_, ?_, ?_, ?_, ?_, Or.inl rfl⟩
                          · show altLP true (List.filter isLP _) = true
                            rw [List.filter_append, filter_isLP_nil ib1]
                            rfl
                          · intro ps' w' h
                            rcases List.mem_append.mp h with h | h
                            · simp at h
                              obtain ⟨rfl, rfl⟩ := h
                              rfl
                            · have := ib1 _ h
                              simp [isLP] at this
                          · refine List.chain'_append.mpr
                              ⟨List.chain'_cons.mpr ⟨by trivial, List.chain'_singleton _⟩,
                                ib2, ?_⟩
                            intro x hx y hy
                            have hx' : x = Event.promptPipeline ps (refMaxLength ps) := by
                              simp at hx; exact hx.symm
                            subst hx'
                            exact viewRel_of_ne _ y (by simp)
                          · refine List.chain'_append.mpr
                              ⟨List.chain'_cons.mpr ⟨by trivial, List.chain'_singleton _⟩,
                                ib3, ?_⟩
                            intro x hx y hy
                            rcases ib4 with h4 | h4
                            · have hy' : y = Event.promptAction sha := by
                                rw [h4] at hy
                                exact (Option.mem_some_iff.mp hy).symm
                              subst hy'
                              exact quitRel_of_ne x _ (by simp)
                            · rw [h4] at hy; cases hy
                          · intro sh hlast
                            by_cases hbnil :
                                (innerLoop n sha
                                  ⟨lists', sels', s.acts, s.gets, s.jobIds,
                                    s.trigs⟩).evs = []
                            · rw [hbnil, List.append_nil] at hlast
                              simp at hlast
                            · rw [List.getLast?_append_of_ne_nil _ hbnil] at hlast
                              have := ib5 sh hlast
                              rw [hbout] at this
                              cases this
                          · intro c hc
                            rcases List.mem_append.mp hc with h | h
                            · simp at h
                            · have := (ib6 c h).2.2
                              rw [hbout] at this
                              cases this
                          · intro c hc; cases hc
                          · intro hn; cases hn
                      | died e =>
                          have hred : outerLoop fd (n + 1) s =
                              ⟨[Event.listCall,
                                  Event.promptPipeline ps (refMaxLength ps)] ++
                                (innerLoop n sha
                                  ⟨lists', sels', s.acts, s.gets, s.jobIds,
                                    s.trigs⟩).evs,
                                (innerLoop n sha
                                  ⟨lists', sels', s.acts, s.gets, s.jobIds,
                                    s.trigs⟩).scr,
                                .died e⟩ := by
                            simp [outerLoop, hlists, hl, hch, hsels, hbout]
                          rw [hred]
                          refine ⟨?_, ?_, ?_, ?_, ?_, ?_, ?_, ?_, Or.inl rfl⟩
                          · show altLP true (List.filter isLP _) = true
                            rw [List.filter_append, filter_isLP_nil ib1]
                            rfl
                          · intro ps' w' h
                            rcases List.mem_append.mp h with h | h
                            · simp at h
                              obtain ⟨rfl, rfl⟩ := h
                              rfl
                            · have := ib1 _ h
                              simp [isLP] at this
                          · refine List.chain'_append.mpr
                              ⟨List.chain'_cons.mpr ⟨by trivial, List.chain'_singleton _⟩,
                                ib2, ?_⟩
                            intro x hx y hy
                            have hx' : x = Event.promptPipeline ps (refMaxLength ps) := by
                              simp at hx; exact hx.symm
                            subst hx'
                            exact viewRel_of_ne _ y (by simp)
                          · refine List.chain'_append.mpr
                              ⟨List.chain'_cons.mpr ⟨by trivial, List.chain'_singleton _⟩,
                                ib3, ?_⟩
                            intro x hx y hy
                            rcases ib4 with h4 | h4
                            · have hy' : y = Event.promptAction sha := by
                                rw [h4] at hy
                                exact (Option.mem_some_iff.mp hy).symm
                              subst hy'
                              exact quitRel_of_ne x _ (by simp)
                            · rw [h4] at hy; cases hy
                          · intro sh hlast
                            by_cases hbnil :
                                (innerLoop n sha
                                  ⟨lists', sels', s.acts, s.gets, s.jobIds,
                                    s.trigs⟩).evs = []
                            · rw [hbnil, List.append_nil] at hlast
                              simp at hlast
                            · rw [List.getLast?_append_of_ne_nil _ hbnil] at hlast
                              have := ib5 sh hlast
                              rw [hbout] at this
                              cases this
                          · intro c hc
                            rcases List.mem_append.mp hc with h | h
                            · simp at h
                            · have := (ib6 c h).2.2
                              rw [hbout] at this
                              cases this
                          · intro c hc; cases hc
                          · intro hn; cases hn
                      | stuck =>
                          have hred : outerLoop fd (n + 1) s =
                              ⟨[Event.listCall,
                                  Event.promptPipeline ps (refMaxLength ps)] ++
                                (innerLoop n sha
                                  ⟨lists', sels', s.acts, s.gets, s.jobIds,
                                    s.trigs⟩).evs,
                                (innerLoop n sha
                                  ⟨lists', sels', s.acts, s.gets, s.jobIds,
                                    s.trigs⟩).scr,
                                .stuck⟩ := by
                            simp [outerLoop, hlists, hl, hch, hsels, hbout]
                          rw [hred]
                          refine ⟨?_, ?_, ?_, ?_, ?_, ?_, ?_, ?_, Or.inl rfl⟩
                          · show altLP true (List.filter isLP _) = true
                            rw [List.filter_append, filter_isLP_nil ib1]
                            rfl
                          · intro ps' w' h
                            rcases List.mem_append.mp h with h | h
                            · simp at h
                              obtain ⟨rfl, rfl⟩ := h
                              rfl
                            · have := ib1 _ h
                              simp [isLP] at this
                          · refine List.chain'_append.mpr
                              ⟨List.chain'_cons.mpr ⟨by trivial, List.chain'_singleton _⟩,
                                ib2, ?_⟩
                            intro x hx y hy
                            have hx' : x = Event.promptPipeline ps (refMaxLength ps) := by
                              simp at hx; exact hx.symm
                            subst hx'
                            exact viewRel_of_ne _ y (by simp)
                          · refine List.chain'_append.mpr
                              ⟨List.chain'_cons.mpr ⟨by trivial, List.chain'_singleton _⟩,
                                ib3, ?_⟩
                            intro x hx y hy
                            rcases ib4 with h4 | h4
                            · have hy' : y = Event.promptAction sha := by
                                rw [h4] at hy
                                exact (Option.mem_some_iff.mp hy).symm
                              subst hy'
                              exact quitRel_of_ne x _ (by simp)
                            · rw [h4] at hy; cases hy
                          · intro sh hlast; rfl
                          · intro c hc
                            rcases List.mem_append.mp hc with h | h
                            · simp at h
                            · have := (ib6 c h).2.2
                              rw [hbout] at this
                              cases this
                          · intro c hc; cases hc
                          · intro hn; cases hn

/-! ## C10: totality of getJobChoices under the 20-character name bound -/

/-- C10: for every list of Job records whose names are all at most 20
characters, getJobChoices succeeds and returns one choice per job, in
order, whose value is that job's id; and the space-repeat count of the
padding (20 minus the name length) is non-negative exactly under that
length precondition. -/
theorem getJobChoices_total_of_short_names (jobs : List Job)
    (h : ∀ j ∈ jobs, j.name.length ≤ 20) :
    (∃ cs, getJobChoices jobs = .ok cs ∧ cs.map JobChoice.value = jobs.map Job.id) ∧
    (∀ j : Job, (∃ s, jsRepeat (20 - (j.name.length : Int)) = .ok s) ↔ j.name.length ≤ 20) := by
  refine ⟨getJobChoices_ok jobs h, ?_⟩
  intro j
  constructor
  · rintro ⟨s, hs⟩
    by_contra hlen
    have hneg : (20 : Int) - (j.name.length : Int) < 0 := by omega
    simp [jsRepeat, hneg] at hs
  · intro hlen
    have hn : ¬ ((20 : Int) - (j.name.length : Int) < 0) := by omega
    exact ⟨String.mk (List.replicate ((20 - (j.name.length : Int)).toNat) ' '),
      by simp [jsRepeat, hn]⟩

/-- Witness for C10 at a concrete two-job list. -/
theorem getJobChoices_total_of_short_names_witness :
    (∀ j ∈ [(⟨"build", "running", 7⟩ : Job), ⟨"deploy", "manual", 9⟩], j.name.length ≤ 20) ∧
    (∃ cs, getJobChoices [(⟨"build", "running", 7⟩ : Job), ⟨"deploy", "manual", 9⟩] = .ok cs ∧
      cs.map JobChoice.value =
        [(⟨"build", "running", 7⟩ : Job), ⟨"deploy", "manual", 9⟩].map Job.id) :=
  ⟨by decide,
   (getJobChoices_total_of_short_names
      [⟨"build", "running", 7⟩, ⟨"deploy", "manual", 9⟩] (by decide)).1⟩

/-! ## C4: unknown job statuses -/

/-- C4 counterexample: as stated the claim fails on the code.  The
index.js version of getJobChoices throws a TypeError on any job whose
status is unrecognized (the lookup has no fallback, so statusColor is
undefined and calling it throws), and even the part_000 version throws
a RangeError on an unrecognized-status job whose name exceeds 20
characters — so the formatting operation can fail on such jobs. -/
theorem getJobChoices_unknownStatus_counterexample :
    getJobChoicesV0 [⟨"build", "pending", 7⟩] = .error "TypeError" ∧
    getJobChoices [⟨"a-very-long-job-name-here", "pending", 7⟩] = .error "RangeError" :=
  ⟨rfl, rfl⟩

/-- C4 amended: provided a job's name is at most 20 characters, the
part_000 getJobChoices never fails on it — an unrecognized status is
rendered with the neutral white color token — and getJobChoices
succeeds on any list of such jobs; the index.js getJobChoices instead
throws a TypeError on any unrecognized status. -/
theorem getJobChoices_unknownStatus_fallback (j : Job) (rest : List Job)
    (hname : j.name.length ≤ 20) (hstatus : jobStatusColorLookup j.status = none) :
    getJobChoices [j] = .ok
      [{ name := colorsBold j.name ++
            String.mk (List.replicate (20 - j.name.length) ' ') ++ "(" ++
            colorsWhite j.status ++ ")",
         value := j.id }] ∧
    (∀ jobs : List Job, (∀ q ∈ jobs, q.name.length ≤ 20) →
      ∃ cs, getJobChoices jobs = .ok cs) ∧
    getJobChoicesV0 (j :: rest) = .error "TypeError" := by
  have hn : ¬ ((20 : Int) - (j.name.length : Int) < 0) := by omega
  have ht : ((20 : Int) - (j.name.length : Int)).toNat = 20 - j.name.length := by omega
  refine ⟨?_, ?_, ?_⟩
  · simp [getJobChoices, jobChoice_ok j hname, hstatus, Bind.bind, Except.bind]
  · intro jobs hj
    obtain ⟨cs, hcs, _⟩ := getJobChoices_ok jobs hj
    exact ⟨cs, hcs⟩
  · simp [getJobChoicesV0, jobChoiceV0, jsRepeat, hn, hstatus, Bind.bind, Except.bind]

/-- Witness for the amended C4 at a concrete unknown-status job. -/
theorem getJobChoices_unknownStatus_fallback_witness :
    getJobChoices [(⟨"build", "pending", 7⟩ : Job)] = .ok
      [{ name := colorsBold "build" ++
            String.mk (List.replicate (20 - "build".length) ' ') ++ "(" ++
            colorsWhite "pending" ++ ")",
         value := 7 }] ∧
    getJobChoicesV0 [(⟨"build", "pending", 7⟩ : Job)] = .error "TypeError" := by
  have h := getJobChoices_unknownStatus_fallback ⟨"build", "pending", 7⟩ []
    (by decide) rfl
  exact ⟨h.1, h.2.2⟩

/-! ## C1: trigger invokes one trigger and one trace subprocess,
resolving only after the trace exits -/

/-- C1: for every job id, both versions of execGlabCiTrigger emit
exactly one trigger subprocess invocation and exactly one trace
subprocess spawn for that id, and whenever the returned promise
resolves, it resolves with the trigger's stdout at a trace position
strictly after the trace subprocess's exit. -/
theorem execGlabCiTrigger_one_trigger_one_trace (jobId : Nat) (r : TrigResult) :
    ((execGlabCiTrigger jobId r).1.count (Event.trigExec jobId) = 1 ∧
     (execGlabCiTrigger jobId r).1.count (Event.traceSpawn jobId) = 1 ∧
     ∀ s, (execGlabCiTrigger jobId r).2 = .resolved s →
       s = r.stdout ∧ ∃ i k : Nat, i < k ∧
         (execGlabCiTrigger jobId r).1[i]? = some (Event.traceExit jobId) ∧
         (execGlabCiTrigger jobId r).1[k]? = some (Event.resolveTrig jobId s)) ∧
    ((execGlabCiTriggerV0 jobId r).1.count (Event.trigExec jobId) = 1 ∧
     (execGlabCiTriggerV0 jobId r).1.count (Event.traceSpawn jobId) = 1 ∧
     ∀ s, (execGlabCiTriggerV0 jobId r).2 = .resolved s →
       s = r.stdout ∧ ∃ i k : Nat, i < k ∧
         (execGlabCiTriggerV0 jobId r).1[i]? = some (Event.traceExit jobId) ∧
         (execGlabCiTriggerV0 jobId r).1[k]? = some (Event.resolveTrig jobId s)) := by
  cases hr : r.error with
  | some e =>
      refine ⟨⟨?_, ?_, ?_⟩, ⟨?_, ?_, ?_⟩⟩ <;>
        simp [execGlabCiTrigger, execGlabCiTriggerV0, hr, List.count_cons]
  | none =>
      refine ⟨⟨?_, ?_, ?_⟩, ⟨?_, ?_, ?_⟩⟩ <;>
        simp [execGlabCiTrigger, execGlabCiTriggerV0, hr, List.count_cons] <;>
        exact ⟨2, 3, by omega, rfl, rfl⟩

/-- Witness for C1 at job id 42 with a successful trigger. -/
theorem execGlabCiTrigger_one_trigger_one_trace_witness :
    ((execGlabCiTrigger 42 ⟨none, "ok", 0⟩).2 = .resolved "ok") ∧
    ("ok" = (⟨none, "ok", 0⟩ : TrigResult).stdout ∧ ∃ i k : Nat, i < k ∧
      (execGlabCiTrigger 42 ⟨none, "ok", 0⟩).1[i]? = some (Event.traceExit 42) ∧
      (execGlabCiTrigger 42 ⟨none, "ok", 0⟩).1[k]? = some (Event.resolveTrig 42 "ok")) :=
  ⟨rfl, (execGlabCiTrigger_one_trigger_one_trace 42 ⟨none, "ok", 0⟩).1.2.2 "ok" rfl⟩

/-! ## C7: failure behavior of execGlabCiList -/

/-- C7 counterexample: with exit code zero and malformed stdout the
promise is never rejected — JSON.parse throws inside the plain exec
callback, an uncaught exception that crashes the process, so no
rejection propagates to the top-level loop as the claim states. -/
theorem execGlabCiList_malformed_counterexample :
    execGlabCiList malformedList = .crashed "SyntaxError" ∧
    (execGlabCiList malformedList).isRejected = false :=
  ⟨rfl, rfl⟩

/-- C7 amended: execGlabCiList rejects (and the rejection propagates to
the top-level loop, terminating the session with no retry) exactly when
the subprocess exits non-zero while its stdout still parses; whenever
the stdout fails to parse — regardless of exit status — the JSON.parse
throw escapes the promise and crashes the process directly; with exit
zero and parsing stdout it resolves with the parsed pipelines. -/
theorem execGlabCiList_amended :
    (∀ (r : ListResult) (ps : List Pipeline),
      r.error = none → r.parsed = .ok ps → execGlabCiList r = .resolved ps) ∧
    (∀ (r : ListResult) (e : String) (ps : List Pipeline),
      r.error = some e → r.parsed = .ok ps → execGlabCiList r = .rejected e) ∧
    (∀ (r : ListResult) (pe : String),
      r.parsed = .error pe → execGlabCiList r = .crashed pe) ∧
    (∀ (fd : String → String) (fuel : Nat) (argv : List String) (s : Script)
        (r : ListResult) (rest : List ListResult) (e : String) (ps : List Pipeline),
      s.lists = r :: rest → r.error = some e → r.parsed = .ok ps →
      (runMain fd (fuel + 1) argv s).1.count Event.listCall = 1 ∧
      (runMain fd (fuel + 1) argv s).2 = .finished 0) := by
  refine ⟨?_, ?_, ?_, ?_⟩
  · intro r ps h1 h2; simp [execGlabCiList, h1, h2]
  · intro r e ps h1 h2; simp [execGlabCiList, h1, h2]
  · intro r pe h; simp [execGlabCiList, h]
  · intro fd fuel argv s r rest e ps hs h1 h2
    have hl : execGlabCiList r = .rejected e := by simp [execGlabCiList, h1, h2]
    by_cases hdbg : "--debug" ∈ argv <;>
      simp [runMain, outerLoop, hs, hl, hdbg, List.count_cons]

/-- Witness for the amended C7: a non-zero exit whose stdout parses is
observed as a rejection, and it ends the session after one list call. -/
theorem execGlabCiList_amended_witness :
    execGlabCiList failedOkList = .rejected "boom" ∧
    (runMain fdZero 1 [] failingListScript).1.count Event.listCall = 1 ∧
    (runMain fdZero 1 [] failingListScript).2 = .finished 0 :=
  ⟨execGlabCiList_amended.2.1 failedOkList "boom" [] rfl rfl,
   execGlabCiList_amended.2.2.2 fdZero 0 [] failingListScript failedOkList [] "boom" []
     rfl rfl rfl⟩

/-! ## C8: the diagnostic flag -/

/-- C8 counterexample: with the debug flag present, the caught error is
printed (header to stdout, error to stderr), but the process then exits
through the normal code-0 path — main returns after its catch block and
never sets a non-zero exit code — contradicting the claimed non-zero
exit path. -/
theorem debugFlag_counterexample :
    runMain fdZero 1 ["--debug"] failingListScript =
      ([Event.listCall, Event.printOut debugHeader, Event.printErr "boom"],
       .finished 0) := by
  rfl

/-- C8 amended: for every top-level rejection caught by main, with the
debug flag the header is printed to stdout and the error to stderr and
the process exits with code 0; without the flag nothing is printed and
the process likewise exits with code 0. -/
theorem debugFlag_amended (fd : String → String) (fuel : Nat) (argv : List String)
    (s : Script) (e : String) (h : (outerLoop fd fuel s).out = .thrown e) :
    ("--debug" ∈ argv →
      (runMain fd fuel argv s).1 =
        (outerLoop fd fuel s).evs ++ [Event.printOut debugHeader, Event.printErr e] ∧
      (runMain fd fuel argv s).2 = .finished 0) ∧
    ("--debug" ∉ argv →
      (runMain fd fuel argv s).1 = (outerLoop fd fuel s).evs ∧
      (runMain fd fuel argv s).2 = .finished 0) := by
  constructor <;> intro hdbg <;> simp [runMain, h, hdbg]

/-- Witness for the amended C8 on the failing-list script. -/
theorem debugFlag_amended_witness :
    (runMain fdZero 1 ["--debug"] failingListScript).1 =
      (outerLoop fdZero 1 failingListScript).evs ++
        [Event.printOut debugHeader, Event.printErr "boom"] ∧
    (runMain fdZero 1 ["--debug"] failingListScript).2 = .finished 0 :=
  (debugFlag_amended fdZero 1 ["--debug"] failingListScript "boom" rfl).1
    (List.mem_singleton.mpr rfl)

/-! ## Reduction helpers for runMain -/

theorem runMain_reduce_exited (fd : String → String) (fuel : Nat) (argv : List String)
    (s : Script) (c : Nat) (hout : (outerLoop fd fuel s).out = .exited c) :
    runMain fd fuel argv s = ((outerLoop fd fuel s).evs, .exited c) := by
  simp only [runMain, hout]

theorem runMain_reduce_debug (fd : String → String) (fuel : Nat) (argv : List String)
    (s : Script) (e : String) (hout : (outerLoop fd fuel s).out = .thrown e)
    (hdbg : "--debug" ∈ argv) :
    runMain fd fuel argv s =
      ((outerLoop fd fuel s).evs ++ [Event.printOut debugHeader, Event.printErr e],
        .finished 0) := by
  simp only [runMain, hout, if_pos hdbg]

theorem runMain_reduce_nodebug (fd : String → String) (fuel : Nat) (argv : List String)
    (s : Script) (e : String) (hout : (outerLoop fd fuel s).out = .thrown e)
    (hdbg : "--debug" ∉ argv) :
    runMain fd fuel argv s = ((outerLoop fd fuel s).evs, .finished 0) := by
  simp only [runMain, hout, if_neg hdbg]

theorem runMain_reduce_died (fd : String → String) (fuel : Nat) (argv : List String)
    (s : Script) (e : String) (hout : (outerLoop fd fuel s).out = .died e) :
    runMain fd fuel argv s = ((outerLoop fd fuel s).evs, .died e) := by
  simp only [runMain, hout]

theorem runMain_reduce_stuck (fd : String → String) (fuel : Nat) (argv : List String)
    (s : Script) (hout : (outerLoop fd fuel s).out = .stuck) :
    runMain fd fuel argv s = ((outerLoop fd fuel s).evs, .stuck) := by
  simp only [runMain, hout]

/-! ## C6: the padding invariant of formatPipeline -/

theorem pipelineStatusOpen_length (st : String) :
    (pipelineStatusOpen st).length = 5 := by
  unfold pipelineStatusOpen
  split_ifs <;> decide

/-- C6: for a pipeline whose reference is no longer than the column
width and whose status is one of the data-model statuses, formatPipeline
succeeds; the reference plus its trailing padding occupies exactly
refColumnWidth characters, the status token is padded to the constant
width 9, and the whole line splits as a prefix followed by the
age/time suffix, the prefix's length depending only on the id digits
and the column width — so the suffix's column offset is independent of
the individual reference length. -/
theorem formatPipeline_padding_invariant (p : Pipeline) (w : Nat) (time : String)
    (href : p.ref.length ≤ w) (hst : p.status ∈ pipelineStatusEnum) :
    ∃ pad1 pad2,
      jsRepeat (9 - (p.status.length : Int)) = .ok pad1 ∧
      jsRepeat ((w : Int) - (p.ref.length : Int)) = .ok pad2 ∧
      (p.status ++ pad1).length = 9 ∧
      (p.ref ++ pad2).length = w ∧
      formatPipeline p w time = .ok
        ((pipelineStatusOpen p.status ++
            (p.status ++ pad1 ++ " • #" ++ toString p.id) ++ "\x1b[39m" ++
            (" (#" ++ toString p.iid ++ ") " ++ p.ref) ++
            (" " ++ pad2)) ++
          (" (" ++ colorsMagenta time ++ ")")) ∧
      (pipelineStatusOpen p.status ++
          (p.status ++ pad1 ++ " • #" ++ toString p.id) ++ "\x1b[39m" ++
          (" (#" ++ toString p.iid ++ ") " ++ p.ref) ++
          (" " ++ pad2)).length =
        29 + (toString p.id).length + (toString p.iid).length + w := by
  have hs9 : p.status.length ≤ 9 := by
    simp [pipelineStatusEnum] at hst
    rcases hst with h | h | h | h | h | h <;> rw [h] <;> decide
  have ht1 : ((9 : Int) - (p.status.length : Int)).toNat = 9 - p.status.length := by
    omega
  have ht2 : (((w : Int)) - (p.ref.length : Int)).toNat = w - p.ref.length := by
    omega
  have h1 : jsRepeat (9 - (p.status.length : Int)) =
      .ok (String.mk (List.replicate (9 - p.status.length) ' ')) := by
    unfold jsRepeat
    rw [if_neg (by omega), ht1]
  have h2 : jsRepeat ((w : Int) - (p.ref.length : Int)) =
      .ok (String.mk (List.replicate (w - p.ref.length) ' ')) := by
    unfold jsRepeat
    rw [if_neg (by omega), ht2]
  refine ⟨_, _, h1, h2, ?_, ?_, ?_, ?_⟩
  · simp [String.length_append]
    omega
  · simp [String.length_append]
    omega
  · unfold formatPipeline
    rw [h1, h2]
    rfl
  · simp [String.length_append, pipelineStatusOpen_length, colorsMagenta, ansiWrap]
    have e1 : ("\x1b[39m" : String).length = 5 := by decide
    have e2 : (" • #" : String).length = 4 := by decide
    have e3 : (" (#" : String).length = 3 := by decide
    have e4 : (") " : String).length = 2 := by decide
    have e5 : (" " : String).length = 1 := by decide
    rw [e1, e2, e3, e4, e5]
    omega

/-- Witness for C6 at a concrete pipeline, width 10 and a fixed time
string. -/
theorem formatPipeline_padding_invariant_witness :
    ∃ pad1 pad2,
      jsRepeat (9 - (("success" : String).length : Int)) = .ok pad1 ∧
      jsRepeat ((10 : Int) - (("main" : String).length : Int)) = .ok pad2 ∧
      (("success" : String) ++ pad1).length = 9 ∧
      (("main" : String) ++ pad2).length = 10 := by
  obtain ⟨pad1, pad2, hp1, hp2, hl1, hl2, _, _⟩ :=
    formatPipeline_padding_invariant
      ⟨101, 7, "success", "main", "sha1", "", "", "t"⟩ 10 "2 days ago"
      (by decide) (by decide)
  exact ⟨pad1, pad2, hp1, hp2, hl1, hl2⟩

/-! ## C5: refColumnWidth is the maximum reference length, recomputed
per fetch -/

/-- C5: refMaxLength of the empty batch is 0; it bounds every
reference length in the batch and is attained by some member of a
non-empty batch; and in every session run, each pipeline-selection
prompt's column width equals refMaxLength of exactly the batch that the
immediately preceding fetch produced — the width is recomputed from the
fresh batch on every listing fetch. -/
theorem refMaxLength_spec :
    refMaxLength [] = 0 ∧
    (∀ ps : List Pipeline, ∀ p ∈ ps, p.ref.length ≤ refMaxLength ps) ∧
    (∀ ps : List Pipeline, ps ≠ [] → ∃ p ∈ ps, p.ref.length = refMaxLength ps) ∧
    (∀ (fd : String → String) (fuel : Nat) (argv : List String) (s : Script)
        (ps : List Pipeline) (w : Nat),
      Event.promptPipeline ps w ∈ (runMain fd fuel argv s).1 →
      w = refMaxLength ps) := by
  refine ⟨rfl, ?_, ?_, ?_⟩
  · intro ps p hp
    exact mem_le_foldl_refMax ps 0 p hp
  · intro ps hne
    rcases foldl_refMax_cases ps 0 with h0 | ⟨p, hp, heq⟩
    · cases ps with
      | nil => exact absurd rfl hne
      | cons p t =>
          refine ⟨p, List.mem_cons_self _ _, ?_⟩
          have hle := mem_le_foldl_refMax (p :: t) 0 p (List.mem_cons_self _ _)
          have h0' : refMaxLength (p :: t) = 0 := h0
          omega
    · exact ⟨p, hp, heq.symm⟩
  · intro fd fuel argv s ps w h
    obtain ⟨_, o2, _⟩ := outerLoop_spec fuel fd s
    cases hout : (outerLoop fd fuel s).out
    case exited c =>
        rw [runMain_reduce_exited fd fuel argv s c hout] at h
        exact o2 ps w h
    case thrown e =>
        by_cases hdbg : "--debug" ∈ argv
        · rw [runMain_reduce_debug fd fuel argv s e hout hdbg] at h
          rcases List.mem_append.mp h with h | h
          · exact o2 ps w h
          · simp at h
        · rw [runMain_reduce_nodebug fd fuel argv s e hout hdbg] at h
          exact o2 ps w h
    case died e =>
        rw [runMain_reduce_died fd fuel argv s e hout] at h
        exact o2 ps w h
    case stuck =>
        rw [runMain_reduce_stuck fd fuel argv s hout] at h
        exact o2 ps w h

/-- Witness for C5 at a concrete two-pipeline batch. -/
theorem refMaxLength_spec_witness :
    ((⟨101, 1, "success", "main", "sha1", "", "", "t"⟩ : Pipeline).ref.length ≤
      refMaxLength [⟨101, 1, "success", "main", "sha1", "", "", "t"⟩,
        ⟨102, 2, "failed", "feature/very-long-name", "sha2", "", "", "t"⟩]) ∧
    (∃ p ∈ [(⟨101, 1, "success", "main", "sha1", "", "", "t"⟩ : Pipeline),
        ⟨102, 2, "failed", "feature/very-long-name", "sha2", "", "", "t"⟩],
      p.ref.length = refMaxLength
        [⟨101, 1, "success", "main", "sha1", "", "", "t"⟩,
          ⟨102, 2, "failed", "feature/very-long-name", "sha2", "", "", "t"⟩]) :=
  ⟨refMaxLength_spec.2.1 _ _ (by simp),
   refMaxLength_spec.2.2.1 _ (by simp)⟩

/-! ## C2: every return to the listing re-fetches -/

/-- C2: in every session trace, the events of the listing cluster form
a strict alternation starting with a list subprocess call: each
pipeline-selection prompt is preceded by exactly one fresh
execGlabCiList call since the previous prompt, so returning to
ListPipelines via Back always re-fetches and never reuses a cached
listing. -/
theorem back_refetches_listing (fd : String → String) (fuel : Nat)
    (argv : List String) (s : Script) :
    altLP true (((runMain fd fuel argv s).1).filter isLP) = true := by
  obtain ⟨o1, _⟩ := outerLoop_spec fuel fd s
  cases hout : (outerLoop fd fuel s).out
  case exited c =>
      simp only [runMain_reduce_exited fd fuel argv s c hout]
      exact o1
  case thrown e =>
      by_cases hdbg : "--debug" ∈ argv
      · simp only [runMain_reduce_debug fd fuel argv s e hout hdbg]
        rw [List.filter_append]
        have hnil : List.filter isLP [Event.printOut debugHeader, Event.printErr e] = [] :=
          rfl
        rw [hnil, List.append_nil]
        exact o1
      · simp only [runMain_reduce_nodebug fd fuel argv s e hout hdbg]
        exact o1
  case died e =>
      simp only [runMain_reduce_died fd fuel argv s e hout]
      exact o1
  case stuck =>
      simp only [runMain_reduce_stuck fd fuel argv s hout]
      exact o1

/-! ## C3: the view cycle returns to the same pipeline's action menu -/

/-- C3: in every session trace, a viewer-subprocess exit for a revision
is immediately followed (when the trace continues) by the action-menu
prompt for that same revision — control returns to PipelineActionMenu
for the same revision, never to ListPipelines, and no listing fetch
intervenes in the view cycle. -/
theorem view_returns_to_same_menu (fd : String → String) (fuel : Nat)
    (argv : List String) (s : Script) :
    List.Chain' viewRel ((runMain fd fuel argv s).1) := by
  obtain ⟨_, _, o3, _, o5, _⟩ := outerLoop_spec fuel fd s
  cases hout : (outerLoop fd fuel s).out
  case exited c =>
      simp only [runMain_reduce_exited fd fuel argv s c hout]
      exact o3
  case thrown e =>
      by_cases hdbg : "--debug" ∈ argv
      · simp only [runMain_reduce_debug fd fuel argv s e hout hdbg]
        refine List.chain'_append.mpr ⟨o3, ?_, ?_⟩
        · exact List.chain'_cons.mpr ⟨by trivial, List.chain'_singleton _⟩
        · intro x hx y hy
          have hy' : y = Event.printOut debugHeader := by
            simp at hy
            exact hy.symm
          subst hy'
          have hxcase : (∀ sh, x ≠ Event.viewExit sh) ∨
              ∃ sh, x = Event.viewExit sh := by
            cases x <;> simp
          rcases hxcase with h1 | ⟨sh, rfl⟩
          · exact viewRel_of_ne x _ h1
          · have := o5 sh (Option.mem_def.mp hx)
            rw [hout] at this
            cases this
      · simp only [runMain_reduce_nodebug fd fuel argv s e hout hdbg]
        exact o3
  case died e =>
      simp only [runMain_reduce_died fd fuel argv s e hout]
      exact o3
  case stuck =>
      simp only [runMain_reduce_stuck fd fuel argv s hout]
      exact o3

/-! ## C9: Quit exits with code 0 and only from the action menu -/

/-- C9: in every session run, any process-exit event carries exit code
0, is the final trace event, and the run ends as an explicit exit with
code 0; every process-exit event immediately follows an action-menu
prompt (Quit is reachable only from PipelineActionMenu); an
explicit-exit outcome always has code 0; and positively, whenever the
operator's first action selection is Quit (after a successful listing
and pipeline selection), the session ends immediately with exit code 0
right after the action-menu prompt. -/
theorem quit_exits_zero_from_action_menu (fd : String → String) (fuel : Nat)
    (argv : List String) (s : Script) :
    (∀ c, Event.exitProc c ∈ (runMain fd fuel argv s).1 →
      c = 0 ∧ ((runMain fd fuel argv s).1).getLast? = some (Event.exitProc 0) ∧
      (runMain fd fuel argv s).2 = .exited 0) ∧
    List.Chain' quitRel ((runMain fd fuel argv s).1) ∧
    (∀ c, (runMain fd fuel argv s).2 = .exited c → c = 0) ∧
    (∀ (r : ListResult) (lists1 : List ListResult) (ps : List Pipeline)
        (chs : List PipelineChoice) (sha : String) (sels1 acts1 : List String),
      s.lists = r :: lists1 → execGlabCiList r = .resolved ps →
      getPipelineChoices fd (refMaxLength ps) ps = .ok chs →
      s.sels = sha :: sels1 → s.acts = "quit" :: acts1 →
      runMain fd (fuel + 2) argv s =
        ([Event.listCall, Event.promptPipeline ps (refMaxLength ps),
          Event.promptAction sha, Event.exitProc 0], .exited 0)) := by
  obtain ⟨_, _, _, o4, _, o6, o7, _⟩ := outerLoop_spec fuel fd s
  have hquitrun : ∀ (r : ListResult) (lists1 : List ListResult) (ps : List Pipeline)
      (chs : List PipelineChoice) (sha : String) (sels1 acts1 : List String),
      s.lists = r :: lists1 → execGlabCiList r = .resolved ps →
      getPipelineChoices fd (refMaxLength ps) ps = .ok chs →
      s.sels = sha :: sels1 → s.acts = "quit" :: acts1 →
      runMain fd (fuel + 2) argv s =
        ([Event.listCall, Event.promptPipeline ps (refMaxLength ps),
          Event.promptAction sha, Event.exitProc 0], .exited 0) := by
    intro r lists1 ps chs sha sels1 acts1 hlists hl hch hsels hacts
    have hsa : selectPipelineAction sha
        ⟨lists1, sels1, s.acts, s.gets, s.jobIds, s.trigs⟩ =
        ⟨[Event.promptAction sha],
          ⟨lists1, sels1, acts1, s.gets, s.jobIds, s.trigs⟩,
          .ret (some "quit")⟩ := by
      simp [selectPipelineAction, hacts]
    have hinner : innerLoop (fuel + 1) sha
        ⟨lists1, sels1, s.acts, s.gets, s.jobIds, s.trigs⟩ =
        ⟨[Event.promptAction sha, Event.exitProc 0],
          ⟨lists1, sels1, acts1, s.gets, s.jobIds, s.trigs⟩,
          .exited⟩ := by
      simp [innerLoop, hsa]
    have houter : outerLoop fd (fuel + 2) s =
        ⟨[Event.listCall, Event.promptPipeline ps (refMaxLength ps),
            Event.promptAction sha, Event.exitProc 0],
          ⟨lists1, sels1, acts1, s.gets, s.jobIds, s.trigs⟩,
          .exited 0⟩ := by
      simp [outerLoop, hlists, hl, hch, hsels, hinner]
    simp [runMain, houter]
  cases hout : (outerLoop fd fuel s).out
  case exited c0 =>
      obtain ⟨hc0, hlast⟩ := o7 c0 hout
      subst hc0
      simp only [runMain_reduce_exited fd fuel argv s 0 hout]
      refine ⟨?_, o4, ?_, hquitrun⟩
      · intro c hc
        obtain ⟨h1, h2, _⟩ := o6 c hc
        exact ⟨h1, h2, trivial⟩
      · intro c h
        injection h with h
        omega
  case thrown e =>
      by_cases hdbg : "--debug" ∈ argv
      · simp only [runMain_reduce_debug fd fuel argv s e hout hdbg]
        refine ⟨?_, ?_, ?_, hquitrun⟩
        · intro c hc
          rcases List.mem_append.mp hc with h | h
          · have := (o6 c h).2.2
            rw [hout] at this
            cases this
          · simp at h
        · refine List.chain'_append.mpr ⟨o4, ?_, ?_⟩
          · exact List.chain'_cons.mpr ⟨by trivial, List.chain'_singleton _⟩
          · intro x hx y hy
            have hy' : y = Event.printOut debugHeader := by
              simp at hy
              exact hy.symm
            subst hy'
            exact quitRel_of_ne x _ (by simp)
        · intro c h
          cases h
      · simp only [runMain_reduce_nodebug fd fuel argv s e hout hdbg]
        refine ⟨?_, o4, ?_, hquitrun⟩
        · intro c hc
          have := (o6 c hc).2.2
          rw [hout] at this
          cases this
        · intro c h
          cases h
  case died e =>
      simp only [runMain_reduce_died fd fuel argv s e hout]
      refine ⟨?_, o4, ?_, hquitrun⟩
      · intro c hc
        have := (o6 c hc).2.2
        rw [hout] at this
        cases this
      · intro c h
        cases h
  case stuck =>
      simp only [runMain_reduce_stuck fd fuel argv s hout]
      refine ⟨?_, o4, ?_, hquitrun⟩
      · intro c hc
        have := (o6 c hc).2.2
        rw [hout] at this
        cases this
      · intro c h
        cases h

/-- Witness for C9 on a concrete quitting session. -/
theorem quit_exits_zero_from_action_menu_witness :
    ((0 : Nat) = 0 ∧
      ((runMain fdZero 2 [] quitScript).1).getLast? = some (Event.exitProc 0) ∧
      (runMain fdZero 2 [] quitScript).2 = .exited 0) ∧
    runMain fdZero 2 [] quitScript =
      ([Event.listCall, Event.promptPipeline [] (refMaxLength []),
        Event.promptAction "sha0", Event.exitProc 0], .exited 0) :=
  ⟨(quit_exits_zero_from_action_menu fdZero 2 [] quitScript).1 0 (by decide),
   (quit_exits_zero_from_action_menu fdZero 0 [] quitScript).2.2.2
     emptyOkList [] [] [] "sha0" [] [] rfl rfl rfl rfl rfl⟩

end GlabCiTools
